import Mathlib

/-!
# Verification of the prosody/TTS orchestration core

Shallow embedding, in Lean 4, of the algorithmic core of the
`e2-f5-tts-spanish-prosody` repository:

* `modules/core/prosody_orchestrator.py` — text segmentation, dramatic
  center, narrative arc, pause assignment (`ArquitecturaVocalMaestra`);
* `modules/core/prosody_processor.py` — acoustic analysis summary
  (`ProsodyAnalyzer`), problem detection (`ProsodyProblemDetector`),
  selective regeneration (`SelectiveRegenerator`);
* `modules/complex_generator.py` — the validation & retry loop and the
  quality score (`EstructuraComplejaMejorada`).

Conventions:

* Python text is modelled as `List Char`; Python floats as `ℚ`
  (the algorithms only add, multiply, divide and compare).
* Calls into external libraries (the F5-TTS engine, `librosa` pitch/RMS
  primitives) are modelled as oracle inputs: the embedded control flow is
  translated from the source, the black-box acoustic values are parameters.
* Python dictionaries with optional keys become structures with `Option`
  fields; `d.get(k, default)` becomes `Option.getD`.
-/

namespace TTSPros

/-! ## Basic text utilities (Python `str` semantics on `List Char`) -/

/-- Python `\s` whitespace characters (ASCII subset used by the sources). -/
def isWs (c : Char) : Bool :=
  c = ' ' || c = '\t' || c = '\n' || c = '\r' || c = '\x0b' || c = '\x0c'

/-- Python `str.strip()`: drop whitespace from both ends. -/
def pstrip (s : List Char) : List Char :=
  ((s.dropWhile isWs).reverse.dropWhile isWs).reverse

/-- Python word character for `\w` / `\b` (ASCII letters, digits, underscore
and the Spanish accented letters that occur in this repository's texts). -/
def isWordChar (c : Char) : Bool :=
  (('a' ≤ c && c ≤ 'z') || ('A' ≤ c && c ≤ 'Z') || ('0' ≤ c && c ≤ '9')
    || c = '_' || c = 'á' || c = 'é' || c = 'í' || c = 'ó' || c = 'ú'
    || c = 'ü' || c = 'ñ' || c = 'Á' || c = 'É' || c = 'Í' || c = 'Ó'
    || c = 'Ú' || c = 'Ü' || c = 'Ñ')

/-- Python `str.lower()` restricted to the characters appearing in the
repository's Spanish texts. -/
def lowerChar (c : Char) : Char :=
  if 'A' ≤ c && c ≤ 'Z' then Char.ofNat (c.toNat + 32)
  else if c = 'Á' then 'á' else if c = 'É' then 'é' else if c = 'Í' then 'í'
  else if c = 'Ó' then 'ó' else if c = 'Ú' then 'ú' else if c = 'Ü' then 'ü'
  else if c = 'Ñ' then 'ñ' else c

/-- Python `str.lower()`. -/
def lowerText (s : List Char) : List Char := s.map lowerChar

/-- `pat.isPrefixOf s` as a boolean on character lists. -/
def isPrefixL (pat s : List Char) : Bool :=
  match pat, s with
  | [], _ => true
  | _ :: _, [] => false
  | p :: ps, c :: cs => p = c && isPrefixL ps cs

/-- Python `pat in s` (substring containment). -/
def containsSub (pat : List Char) : List Char → Bool
  | [] => isPrefixL pat []
  | s@(_ :: cs) => isPrefixL pat s || containsSub pat cs

/-- Scanner for `countSub`: `skip` counts characters still to be consumed
by the previous (non-overlapping) match before matching may resume. -/
def countSubAux (pat : List Char) : List Char → ℕ → ℕ
  | [], _ => 0
  | c :: cs, skip =>
    if 0 < skip then countSubAux pat cs (skip - 1)
    else if isPrefixL pat (c :: cs) then
      1 + countSubAux pat cs (pat.length - 1)
    else countSubAux pat cs 0

/-- Python `s.count(pat)` for a non-empty pattern: number of
non-overlapping occurrences, scanning left to right. -/
def countSub (pat s : List Char) : ℕ := countSubAux pat s 0

/-- Python `s.endswith(c)` for a single character. -/
def endsWithChar (s : List Char) (c : Char) : Bool :=
  match s.getLast? with
  | some d => d = c
  | none => false

/-- Accumulator-based scanner for `wordsOf` (`acc` holds the current
word-character run, reversed). -/
def wordsOfAux : List Char → List Char → List (List Char)
  | [], acc => if acc.isEmpty then [] else [acc.reverse]
  | c :: cs, acc =>
    if isWordChar c then wordsOfAux cs (c :: acc)
    else if acc.isEmpty then wordsOfAux cs []
    else acc.reverse :: wordsOfAux cs []

/-- Maximal runs of `\w` characters: the matches of `\b\w+\b` in Python
(used by `re.findall(r'\b\w+\b', text)`). -/
def wordsOf (s : List Char) : List (List Char) := wordsOfAux s []

/-- `np.mean` on a list of rationals (`sum/len`; empty list gives `0`,
where numpy would give NaN — no claim depends on the empty case). -/
def meanQ (l : List ℚ) : ℚ := l.sum / l.length

/-! ## Narrative arc (`ArquitecturaVocalMaestra._generar_arco_narrativo`)

`configuracion['arco_global']`: `desarrollo_peak = 0.15`,
`cierre_drop = -0.08`. -/

/-- `desarrollo_peak` from `configuracion['arco_global']`. -/
def desarrolloPeak : ℚ := 15 / 100

/-- `cierre_drop` from `configuracion['arco_global']`. -/
def cierreDrop : ℚ := -8 / 100

/-- Body of the `for i in range(N)` loop of `_generar_arco_narrativo`:
the tone factor assigned to paragraph `i` relative to center `centro`. -/
def arcoFactor (N centro i : ℕ) : ℚ :=
  if i < centro then
    1 + ((i : ℚ) / (centro : ℚ)) * desarrolloPeak
  else if i = centro then
    1 + desarrolloPeak
  else
    let descensoRestante : ℕ := N - centro - 1
    if 0 < descensoRestante then
      let pos : ℚ := ((i - centro : ℕ) : ℚ) / (descensoRestante : ℚ)
      (1 + desarrolloPeak) * (1 - pos) + (1 + cierreDrop) * pos
    else
      1 + cierreDrop

/-- `ArquitecturaVocalMaestra._generar_arco_narrativo(N, centro)`. -/
def generarArcoNarrativo (N centro : ℕ) : List ℚ :=
  (List.range N).map (arcoFactor N centro)

/-! ## Pause assignment (`ArquitecturaVocalMaestra._calcular_pausa_transicion`) -/

/-- `ArquitecturaVocalMaestra._detectar_tipo_transicion`. -/
def detectarTipoTransicion (fraseActual fraseSiguiente : List Char) : String :=
  let actualLower := lowerText fraseActual
  let siguienteLower := lowerText fraseSiguiente
  if ["sin embargo", "pero", "no obstante", "aunque"].any
      (fun ind => containsSub ind.toList siguienteLower) then
    "contraste"
  else if ["además", "también", "asimismo", "igualmente"].any
      (fun ind => containsSub ind.toList siguienteLower) then
    "continuidad"
  else if ["por tanto", "así pues", "en resumen"].any
      (fun ind => containsSub ind.toList actualLower) then
    "conclusion_parcial"
  else
    "normal"

/-- `ArquitecturaVocalMaestra._calcular_pausa_transicion`.  The Python
`todas_frases[frase_id + 1]` access is modelled with `getD []`
(the caller always passes `total_frases = len(todas_frases)`, making the
access in bounds on that branch). -/
def calcularPausaTransicion (frase : List Char) (fraseId totalFrases : ℕ)
    (todasFrases : List (List Char)) (esUltimoParrafo : Bool) : ℚ :=
  let pausaBase : ℚ :=
    if endsWithChar (pstrip frase) '.' then 8 / 10
    else if endsWithChar (pstrip frase) '!' then 6 / 10
    else if endsWithChar (pstrip frase) '?' then 5 / 10
    else if endsWithChar (pstrip frase) ',' then 3 / 10
    else 5 / 10
  let pausaBase : ℚ :=
    if fraseId = totalFrases - 1 then
      if esUltimoParrafo then pausaBase * 2 else pausaBase * (18 / 10)
    else if fraseId < totalFrases - 1 then
      let siguienteFrase := todasFrases.getD (fraseId + 1) []
      let transicion := detectarTipoTransicion frase siguienteFrase
      if transicion = "contraste" then pausaBase * (13 / 10)
      else if transicion = "continuidad" then pausaBase * (8 / 10)
      else if transicion = "conclusion_parcial" then pausaBase * (11 / 10)
      else pausaBase
    else pausaBase
  min (max pausaBase (2 / 10)) 3

end TTSPros

/-! ## C5 — narrative arc monotonicity -/

namespace TTSPros

theorem arcoFactor_mono_before {N centro i j : ℕ} (hij : i ≤ j) (hj : j ≤ centro) :
    arcoFactor N centro i ≤ arcoFactor N centro j := by
  rcases eq_or_lt_of_le hj with hj' | hj'
  · subst hj'
    rcases eq_or_lt_of_le hij with h | h
    · subst h; exact le_refl _
    · unfold arcoFactor
      rw [if_pos h, if_neg (Nat.lt_irrefl j), if_pos rfl]
      have hc : (0 : ℚ) < (j : ℚ) := by exact_mod_cast Nat.zero_lt_of_lt h
      have : (i : ℚ) / (j : ℚ) ≤ 1 := by
        rw [div_le_one hc]; exact_mod_cast le_of_lt h
      unfold desarrolloPeak; nlinarith
  · have hi : i < centro := lt_of_le_of_lt hij hj'
    unfold arcoFactor
    rw [if_pos hi, if_pos hj']
    have hc : (0 : ℚ) < (centro : ℚ) := by
      exact_mod_cast Nat.zero_lt_of_lt hi
    have hdiv : (i : ℚ) / (centro : ℚ) ≤ (j : ℚ) / (centro : ℚ) := by
      gcongr
    unfold desarrolloPeak; nlinarith

theorem arcoFactor_anti_after {N centro i j : ℕ} (hci : centro ≤ i)
    (hij : i ≤ j) (hjN : j < N) :
    arcoFactor N centro j ≤ arcoFactor N centro i := by
  rcases eq_or_lt_of_le hci with hci' | hci'
  · subst hci'
    rcases eq_or_lt_of_le hij with h | h
    · subst h; exact le_refl _
    · unfold arcoFactor
      rw [if_neg (by omega : ¬ j < centro), if_neg (by omega : ¬ j = centro),
        if_neg (Nat.lt_irrefl centro), if_pos rfl]
      have hd : 0 < N - centro - 1 := by omega
      rw [if_pos hd]
      have hdq : (0 : ℚ) < ((N - centro - 1 : ℕ) : ℚ) := by exact_mod_cast hd
      have hp0 : (0 : ℚ) ≤ ((j - centro : ℕ) : ℚ) / ((N - centro - 1 : ℕ) : ℚ) := by
        positivity
      unfold desarrolloPeak cierreDrop
      nlinarith
  · have hcj : centro < j := lt_of_lt_of_le hci' hij
    unfold arcoFactor
    rw [if_neg (by omega : ¬ i < centro), if_neg (by omega : ¬ i = centro),
      if_neg (by omega : ¬ j < centro), if_neg (by omega : ¬ j = centro)]
    have hd : 0 < N - centro - 1 := by omega
    rw [if_pos hd, if_pos hd]
    have hdq : (0 : ℚ) < ((N - centro - 1 : ℕ) : ℚ) := by exact_mod_cast hd
    have hple : ((i - centro : ℕ) : ℚ) / ((N - centro - 1 : ℕ) : ℚ)
        ≤ ((j - centro : ℕ) : ℚ) / ((N - centro - 1 : ℕ) : ℚ) := by
      gcongr
    unfold desarrolloPeak cierreDrop
    nlinarith

theorem generarArcoNarrativo_getD {N centro i : ℕ} (hi : i < N) :
    (generarArcoNarrativo N centro).getD i 0 = arcoFactor N centro i := by
  unfold generarArcoNarrativo
  rw [List.getD_eq_getElem?_getD, List.getElem?_map, List.getElem?_range hi]
  rfl

/-- C5: for every paragraph count `N` and center `c` in `0..N-1`, the
narrative-arc factor list produced by `_generar_arco_narrativo` is
monotonically non-decreasing on paragraph indices up to the center and
monotonically non-increasing on paragraph indices from the center on. -/
theorem narrative_arc_monotone (N c i j : ℕ) (hc : c < N) (hij : i ≤ j) :
    (j ≤ c → (generarArcoNarrativo N c).getD i 0 ≤ (generarArcoNarrativo N c).getD j 0) ∧
    (c ≤ i → j < N → (generarArcoNarrativo N c).getD j 0 ≤ (generarArcoNarrativo N c).getD i 0) := by
  constructor
  · intro hjc
    have hjN : j < N := lt_of_le_of_lt hjc hc
    rw [generarArcoNarrativo_getD (lt_of_le_of_lt hij hjN),
      generarArcoNarrativo_getD hjN]
    exact arcoFactor_mono_before hij hjc
  · intro hci hjN
    rw [generarArcoNarrativo_getD (lt_of_le_of_lt hij hjN),
      generarArcoNarrativo_getD hjN]
    exact arcoFactor_anti_after hci hij hjN

/-- Witness for C5 at a concrete input: `N = 5`, center `2`, ascending side
between paragraphs 1 and 2. -/
theorem narrative_arc_monotone_witness :
    (generarArcoNarrativo 5 2).getD 1 0 ≤ (generarArcoNarrativo 5 2).getD 2 0 :=
  (narrative_arc_monotone 5 2 1 2 (by decide) (by decide)).1 (by decide)

/-! ## Dramatic center (`ArquitecturaVocalMaestra._calcular_centro_dramatico`) -/

/-- `indicadores_peso['giros']` (weight 3). -/
def girosWords : List String :=
  ["sin embargo", "pero", "no obstante", "aunque", "mientras que"]

/-- `indicadores_peso['importancia']` (weight 2). -/
def importanciaWords : List String :=
  ["fundamental", "crucial", "esencial", "importante", "clave"]

/-- `indicadores_peso['conclusiones']` (weight 2). -/
def conclusionesWords : List String :=
  ["finalmente", "por lo tanto", "en conclusión", "así pues"]

/-- `indicadores_peso['contraste']` (weight 2). -/
def contrasteWords : List String :=
  ["diferente", "opuesto", "contrario", "distinto"]

/-- `indicadores_peso['causalidad']` (weight 1). -/
def causalidadWords : List String :=
  ["porque", "debido a", "por esta razón", "consecuentemente"]

/-- All indicator words of `_calcular_centro_dramatico`, in dict order. -/
def allIndicatorWords : List String :=
  girosWords ++ importanciaWords ++ conclusionesWords ++ contrasteWords ++
    causalidadWords

/-- Total count of a category's words in a (lowercased) paragraph:
`sum(texto_lower.count(palabra) for palabra in palabras)`. -/
def countCat (ws : List String) (t : List Char) : ℕ :=
  (ws.map (fun w => countSub w.toList t)).sum

/-- Weight of one paragraph in `_calcular_centro_dramatico`: the weighted
count of the five lexical categories, plus `len(parrafo)/100`, multiplied
by `1.2` when the relative position `i/len(parrafos)` lies in `[0.3, 0.8]`. -/
def pesoParrafo (nTot i : ℕ) (p : List Char) : ℚ :=
  let t := lowerText p
  let peso : ℚ :=
    3 * countCat girosWords t + 2 * countCat importanciaWords t +
    2 * countCat conclusionesWords t + 2 * countCat contrasteWords t +
    1 * countCat causalidadWords t
  let peso := peso + (p.length : ℚ) / 100
  if 3 / 10 ≤ (i : ℚ) / (nTot : ℚ) ∧ (i : ℚ) / (nTot : ℚ) ≤ 8 / 10 then
    peso * (12 / 10)
  else peso

/-- `pesos_parrafos.index(max(pesos_parrafos))`: first index attaining the
maximum (Python `max` keeps the earliest maximal element). -/
def idxOfMaxAux : List ℚ → ℕ → ℕ → ℚ → ℕ
  | [], _, bi, _ => bi
  | q :: qs, k, bi, bv =>
    if bv < q then idxOfMaxAux qs (k + 1) k q
    else idxOfMaxAux qs (k + 1) bi bv

/-- First index of the maximum of a list of weights (`0` on the empty list,
where Python `max([])` would raise). -/
def idxOfMax : List ℚ → ℕ
  | [] => 0
  | q :: qs => idxOfMaxAux qs 1 0 q

/-- `ArquitecturaVocalMaestra._calcular_centro_dramatico(parrafos)`. -/
def calcularCentroDramatico (parrafos : List (List Char)) : ℕ :=
  idxOfMax (parrafos.enum.map (fun iq => pesoParrafo parrafos.length iq.1 iq.2))

/-! ## C6 — pause clamping -/

/-- C6: for every sentence (and every position, neighbour list and
paragraph-final flag), the pause assigned by `_calcular_pausa_transicion`
after all multipliers is clamped to `[0.2, 3.0]` seconds. -/
theorem pause_clamped (frase : List Char) (fraseId totalFrases : ℕ)
    (todasFrases : List (List Char)) (esUltimoParrafo : Bool) :
    (2 / 10 : ℚ) ≤ calcularPausaTransicion frase fraseId totalFrases todasFrases esUltimoParrafo ∧
    calcularPausaTransicion frase fraseId totalFrases todasFrases esUltimoParrafo ≤ 3 := by
  unfold calcularPausaTransicion
  constructor
  · apply le_min (le_max_right _ _)
    norm_num
  · exact min_le_right _ _

/-! ## C4 — dramatic center selection -/

theorem countCat_eq_zero {t : List Char} {ws : List String}
    (h : ∀ w ∈ ws, countSub w.toList t = 0) : countCat ws t = 0 := by
  induction ws with
  | nil => rfl
  | cons w ws ih =>
    have hw := h w (List.mem_cons_self _ _)
    have hrest := ih fun w' hw' => h w' (List.mem_cons_of_mem _ hw')
    simp [countCat] at hrest ⊢
    exact ⟨hw, hrest⟩

theorem countCat_giros_only_sinEmbargo {t : List Char}
    (h : ∀ w ∈ allIndicatorWords, w ≠ "sin embargo" → countSub w.toList t = 0) :
    countCat girosWords t = countSub "sin embargo".toList t := by
  have hpero := h "pero" (by simp [allIndicatorWords, girosWords]) (by decide)
  have hno := h "no obstante" (by simp [allIndicatorWords, girosWords]) (by decide)
  have haun := h "aunque" (by simp [allIndicatorWords, girosWords]) (by decide)
  have hmq := h "mientras que" (by simp [allIndicatorWords, girosWords]) (by decide)
  simp only [countCat, girosWords, List.map_cons, List.map_nil, List.sum_cons,
    List.sum_nil]
  rw [hpero, hno, haun, hmq]
  omega

theorem idxOfMax_three_one {a b c : ℚ} (hab : a < b) (hcb : ¬ b < c) :
    idxOfMax [a, b, c] = 1 := by
  unfold idxOfMax idxOfMaxAux
  rw [if_pos hab]
  unfold idxOfMaxAux
  rw [if_neg hcb]
  rfl

/-- C4 counterexample: a three-paragraph document where the second
paragraph holds the only contrast connective ("sin embargo") but the much
heavier keyword/length weight of the first paragraph wins, so
`_calcular_centro_dramatico` selects index 0, not 1. -/
theorem dramatic_center_counterexample :
    calcularCentroDramatico
      ["fundamental crucial esencial importante clave.".toList,
       "sin embargo.".toList,
       "nada especial aqui hoy.".toList] = 0 := by
  with_unfolding_all decide

/-- C4 amended: for a three-paragraph document in which the second
paragraph contains the only contrast connective ("sin embargo") and the
paragraphs carry no other indicator keywords and have equal lengths, the
dramatic-center computation selects paragraph index 1. -/
theorem dramatic_center_second_paragraph (p0 p1 p2 : List Char)
    (hL0 : p0.length = p1.length) (hL2 : p2.length = p1.length)
    (h0 : ∀ w ∈ allIndicatorWords, countSub w.toList (lowerText p0) = 0)
    (h2 : ∀ w ∈ allIndicatorWords, countSub w.toList (lowerText p2) = 0)
    (h1 : 0 < countSub "sin embargo".toList (lowerText p1))
    (h1' : ∀ w ∈ allIndicatorWords, w ≠ "sin embargo" →
      countSub w.toList (lowerText p1) = 0) :
    calcularCentroDramatico [p0, p1, p2] = 1 := by
  have hrepr : calcularCentroDramatico [p0, p1, p2] =
      idxOfMax [pesoParrafo 3 0 p0, pesoParrafo 3 1 p1, pesoParrafo 3 2 p2] := rfl
  rw [hrepr]
  have hz0 : ∀ ws : List String, (∀ w ∈ ws, w ∈ allIndicatorWords) →
      countCat ws (lowerText p0) = 0 :=
    fun ws hws => countCat_eq_zero fun w hw => h0 w (hws w hw)
  have hz2 : ∀ ws : List String, (∀ w ∈ ws, w ∈ allIndicatorWords) →
      countCat ws (lowerText p2) = 0 :=
    fun ws hws => countCat_eq_zero fun w hw => h2 w (hws w hw)
  have hz1 : ∀ ws : List String,
      (∀ w ∈ ws, w ∈ allIndicatorWords ∧ w ≠ "sin embargo") →
      countCat ws (lowerText p1) = 0 :=
    fun ws hws => countCat_eq_zero fun w hw =>
      h1' w (hws w hw).1 (hws w hw).2
  have hp0 : pesoParrafo 3 0 p0 = (p0.length : ℚ) / 100 := by
    simp only [pesoParrafo]
    rw [hz0 _ (by decide), hz0 _ (by decide), hz0 _ (by decide),
      hz0 _ (by decide), hz0 _ (by decide)]
    rw [if_neg (by norm_num)]
    norm_num
  have hp2 : pesoParrafo 3 2 p2 = ((p2.length : ℚ) / 100) * (12 / 10) := by
    simp only [pesoParrafo]
    rw [hz2 _ (by decide), hz2 _ (by decide), hz2 _ (by decide),
      hz2 _ (by decide), hz2 _ (by decide)]
    rw [if_pos (by norm_num)]
    norm_num
  have hp1 : pesoParrafo 3 1 p1 =
      (3 * (countSub "sin embargo".toList (lowerText p1) : ℚ) +
        (p1.length : ℚ) / 100) * (12 / 10) := by
    simp only [pesoParrafo]
    rw [countCat_giros_only_sinEmbargo h1',
      hz1 _ (by decide), hz1 _ (by decide), hz1 _ (by decide), hz1 _ (by decide)]
    rw [if_pos (by norm_num)]
    ring_nf
  rw [hp0, hp1, hp2, hL0, hL2]
  have hLpos : (0 : ℚ) ≤ (p1.length : ℚ) := by positivity
  have hcpos : (1 : ℚ) ≤ (countSub "sin embargo".toList (lowerText p1) : ℚ) := by
    exact_mod_cast h1
  apply idxOfMax_three_one
  · nlinarith
  · intro hlt
    nlinarith

/-- Witness for C4 amended: three equal-length paragraphs, only the second
containing "sin embargo". -/
theorem dramatic_center_second_paragraph_witness :
    calcularCentroDramatico
      ["hola mundo grande y feliz".toList,
       "sin embargo hay algo mas.".toList,
       "otro mundo grande y feliz".toList] = 1 :=
  dramatic_center_second_paragraph _ _ _ (by decide) (by decide) (by decide)
    (by decide) (by decide) (by decide)

/-! ## Spanish features (`EstructuraComplejaMejorada.detect_spanish_features`)

The three `sinalefa_patterns` regexes and the `problematic_finals` word scan,
feeding `complexity_score = min(1.0, sinalefas*0.1 + finals*0.02)`. -/

/-- `[aeiouáéíóú]` (the vowel class of the first sinalefa pattern). -/
def isVowelFull (c : Char) : Bool :=
  c = 'a' || c = 'e' || c = 'i' || c = 'o' || c = 'u' ||
  c = 'á' || c = 'é' || c = 'í' || c = 'ó' || c = 'ú'

/-- `[aeiou]` (the vowel class of the second and third sinalefa patterns). -/
def isVowelPlain (c : Char) : Bool :=
  c = 'a' || c = 'e' || c = 'i' || c = 'o' || c = 'u'

/-- Match `\s+` followed by one character satisfying `p`; returns the
number of characters consumed (the whitespace run plus the final char). -/
def wsRunThen (p : Char → Bool) (s : List Char) : Option ℕ :=
  let k := (s.takeWhile isWs).length
  if 0 < k then
    match s.drop k with
    | d :: _ => if p d then some (k + 1) else none
    | [] => none
  else none

/-- Match of `[aeiouáéíóú]\s+[aeiouáéíóú]` at the head of the list
(total consumed length on success). -/
def matchSinalefaVV (s : List Char) : Option ℕ :=
  match s with
  | c :: rest => if isVowelFull c then (wsRunThen isVowelFull rest).map (1 + ·)
      else none
  | [] => none

/-- Match of `[aeiou]m\s+[aeiou]` at the head of the list, for the literal
mid consonant `m` (`n` or `r` in the source patterns). -/
def matchSinalefaVCV (mid : Char) (s : List Char) : Option ℕ :=
  match s with
  | c :: m :: rest =>
    if isVowelPlain c && m = mid then (wsRunThen isVowelPlain rest).map (2 + ·)
    else none
  | _ => none

/-- `re.finditer` count of non-overlapping matches of a matcher, scanning
left to right (`skip` counts characters of the previous match still
to be consumed). -/
def countPatAux (m : List Char → Option ℕ) : List Char → ℕ → ℕ
  | [], _ => 0
  | c :: cs, skip =>
    if 0 < skip then countPatAux m cs (skip - 1)
    else
      match m (c :: cs) with
      | some k => 1 + countPatAux m cs (k - 1)
      | none => countPatAux m cs 0

/-- Count of non-overlapping matches of a matcher over a text. -/
def countPat (m : List Char → Option ℕ) (s : List Char) : ℕ :=
  countPatAux m s 0

/-- `self.problematic_finals = ['s', 'd', 'r', 'n', 'l']`. -/
def problematicFinals : List Char := ['s', 'd', 'r', 'n', 'l']

/-- `len(analysis['sinalefas'])`: total matches of the three
`sinalefa_patterns` over the lowercased text. -/
def countSinalefas (text : List Char) : ℕ :=
  let t := lowerText text
  countPat matchSinalefaVV t + countPat (matchSinalefaVCV 'n') t +
    countPat (matchSinalefaVCV 'r') t

/-- `len(analysis['problematic_finals'])`: words (`\b\w+\b` over the
lowercased text) whose final character is a problematic consonant. -/
def countProblematicFinals (text : List Char) : ℕ :=
  ((wordsOf (lowerText text)).filter fun w =>
    match w.getLast? with
    | some c => problematicFinals.contains c
    | none => false).length

/-- `analysis['complexity_score']` from `detect_spanish_features`:
`min(1.0, sinalefas*0.1 + finals*0.02)`. -/
def complexityScore (text : List Char) : ℚ :=
  min 1 ((countSinalefas text : ℚ) * (1 / 10) +
    (countProblematicFinals text : ℚ) * (2 / 100))

/-! ## Quality score (`EstructuraComplejaMejorada.evaluate_audio_quality`)

`quality_metrics`: `min_duration_ratio = 0.7`, `max_duration_ratio = 1.5`,
`min_energy_threshold = 0.001`, `max_silence_ratio = 0.25`.  The RMS and
the internal-silence ratio are produced by `librosa` feature primitives on
the waveform; they enter the embedding as oracle inputs `rms` and
`silenceRatio`. -/

/-- `expected_mid = (expected_min + expected_max) / 2` with the
complexity-widened bounds of `evaluate_audio_quality`. -/
def expectedMid (text : List Char) : ℚ :=
  let expectedMin : ℚ := (text.length : ℚ) / 15 * (7 / 10)
  let expectedMax : ℚ := (text.length : ℚ) / 8 * (15 / 10)
  let expectedMin := if 3 / 10 < complexityScore text then
    expectedMin * (9 / 10) else expectedMin
  let expectedMax := if 3 / 10 < complexityScore text then
    expectedMax * (12 / 10) else expectedMax
  (expectedMin + expectedMax) / 2

/-- `duration_penalty = abs(duration - expected_mid) / expected_mid`. -/
def durationPenalty (duration eMid : ℚ) : ℚ := |duration - eMid| / eMid

/-- `energy_penalty = max(0, (min_energy_threshold - rms) / min_energy_threshold)`. -/
def energyPenalty (rms : ℚ) : ℚ :=
  max 0 ((1 / 1000 - rms) / (1 / 1000))

/-- `silence_penalty = max(0, silence_ratio - max_silence_ratio)`. -/
def silencePenalty (silenceRatio : ℚ) : ℚ :=
  max 0 (silenceRatio - 25 / 100)

/-- `EstructuraComplejaMejorada.evaluate_audio_quality`.  `audioLen` is
`len(audio)`, `sampleRate` is `self.sample_rate`.  A zero `expected_mid`
(empty text) raises `ZeroDivisionError` in Python, caught by the
surrounding `except` which returns `999.0`; that exception path is the
explicit `999` branch here. -/
def evaluateAudioQuality (audioLen sampleRate : ℕ) (text : List Char)
    (rms silenceRatio : ℚ) : ℚ :=
  let duration : ℚ := (audioLen : ℚ) / (sampleRate : ℚ)
  let eMid := expectedMid text
  if eMid = 0 then 999
  else
    2 * durationPenalty duration eMid + 1 * energyPenalty rms +
      1 * silencePenalty silenceRatio

/-! ## C7 — quality score non-negativity -/

theorem expectedMid_nonneg (text : List Char) : 0 ≤ expectedMid text := by
  dsimp only [expectedMid]
  have h : (0 : ℚ) ≤ (text.length : ℚ) := by positivity
  split <;> nlinarith

/-- C7: for every audio length, sample rate, text and librosa-derived
RMS/silence values, the quality score of `evaluate_audio_quality` (the
weighted sum `2×duration + 1×energy + 1×silence`) is non-negative, and a
returned score of `0` forces every penalty component to `0`. -/
theorem quality_score_nonneg (audioLen sampleRate : ℕ) (text : List Char)
    (rms silenceRatio : ℚ) :
    0 ≤ evaluateAudioQuality audioLen sampleRate text rms silenceRatio ∧
    (evaluateAudioQuality audioLen sampleRate text rms silenceRatio = 0 →
      durationPenalty ((audioLen : ℚ) / (sampleRate : ℚ)) (expectedMid text) = 0 ∧
      energyPenalty rms = 0 ∧ silencePenalty silenceRatio = 0) := by
  dsimp only [evaluateAudioQuality]
  split
  · exact ⟨by norm_num, by intro h; exact absurd h (by norm_num)⟩
  · rename_i hne
    have hmid : 0 < expectedMid text :=
      lt_of_le_of_ne (expectedMid_nonneg text) (Ne.symm hne)
    have hd : 0 ≤ durationPenalty ((audioLen : ℚ) / (sampleRate : ℚ)) (expectedMid text) := by
      unfold durationPenalty
      positivity
    have he : 0 ≤ energyPenalty rms := le_max_left 0 _
    have hs : 0 ≤ silencePenalty silenceRatio := le_max_left 0 _
    refine ⟨by linarith, fun h => ⟨by linarith, by linarith, by linarith⟩⟩

/-- Witness for C7 at a concrete input. -/
theorem quality_score_nonneg_witness :
    0 ≤ evaluateAudioQuality 24000 24000 "hola.".toList (1 / 100) (1 / 10) ∧
    (evaluateAudioQuality 24000 24000 "hola.".toList (1 / 100) (1 / 10) = 0 →
      durationPenalty ((24000 : ℚ) / (24000 : ℚ)) (expectedMid "hola.".toList) = 0 ∧
      energyPenalty (1 / 100) = 0 ∧ silencePenalty (1 / 10) = 0) :=
  quality_score_nonneg 24000 24000 "hola.".toList (1 / 100) (1 / 10)

/-! ## Acoustic per-segment summary (`ProsodyAnalyzer.analyze_complete_audio`)

Lines 474–483: from the windows' `pitch_mean` values, `all_pitches` keeps
the voiced (positive) ones and the summary computes `pitch_start`,
`pitch_middle`, `pitch_end` and `arc_slope`.  The per-window pitch itself
comes from `librosa.piptrack` and enters as input data. -/

/-- The summary block of `analyze_complete_audio`: `pitch_start` is the
mean of `all_pitches[:max(2, len//5)]`, `pitch_middle` of
`all_pitches[len//3 : 2*len//3]`, `pitch_end` of
`all_pitches[-max(2, len//5):]`, and
`arc_slope = (pitch_end - pitch_start) / pitch_start`; `none` when there
is no voiced pitch. -/
def segmentPitchSummary (windowPitches : List ℚ) : Option (ℚ × ℚ × ℚ × ℚ) :=
  let allPitches := windowPitches.filter (fun p => 0 < p)
  if allPitches.isEmpty then none
  else
    let n := allPitches.length
    let pitchStart := meanQ (allPitches.take (max 2 (n / 5)))
    let pitchMiddle := meanQ ((allPitches.drop (n / 3)).take (2 * n / 3 - n / 3))
    let pitchEnd := meanQ (allPitches.drop (n - max 2 (n / 5)))
    some (pitchStart, pitchMiddle, pitchEnd, (pitchEnd - pitchStart) / pitchStart)

/-- Modelled from the spec: mean pitch over the first 20% of voiced
frames (`⌊n/5⌋` frames), as the claim states it. -/
def specFirst20 (ps : List ℚ) : ℚ := meanQ (ps.take (ps.length / 5))

/-- Modelled from the spec: mean pitch over the middle 20% of voiced
frames (indices `⌊2n/5⌋` to `⌊3n/5⌋`), as the claim states it. -/
def specMiddle20 (ps : List ℚ) : ℚ :=
  meanQ ((ps.drop (2 * ps.length / 5)).take (3 * ps.length / 5 - 2 * ps.length / 5))

/-- Amended description of `pitch_start`: mean of the first
`max(2, ⌊n/5⌋)` voiced frames. -/
def amendedPitchStart (ps : List ℚ) : ℚ := meanQ (ps.take (max 2 (ps.length / 5)))

/-- Amended description of `pitch_middle`: mean of the middle third of the
voiced frames (indices `⌊n/3⌋` to `⌊2n/3⌋`). -/
def amendedPitchMiddle (ps : List ℚ) : ℚ :=
  meanQ ((ps.drop (ps.length / 3)).take (2 * ps.length / 3 - ps.length / 3))

/-- Amended description of `pitch_end`: mean of the last
`max(2, ⌊n/5⌋)` voiced frames. -/
def amendedPitchEnd (ps : List ℚ) : ℚ :=
  meanQ (ps.drop (ps.length - max 2 (ps.length / 5)))

/-! ## C10 — per-segment pitch summary -/

/-- C10 counterexample: on five voiced frames `[100, 200, 100, 200, 100]`
the code's summary is `(150, 150, 150, 0)`, while the mean over the first
20% of voiced frames is `100` and the mean over the middle 20% is `100`:
the summary does not compute the spec's first/middle 20% means. -/
theorem segment_summary_counterexample :
    segmentPitchSummary [100, 200, 100, 200, 100] = some (150, 150, 150, 0) ∧
    specFirst20 [100, 200, 100, 200, 100] = 100 ∧
    specMiddle20 [100, 200, 100, 200, 100] = 100 ∧
    ((150 : ℚ) = 100 → False) := by
  with_unfolding_all decide

/-- C10 amended: for every accepted segment with voiced frames, the
summary computes the mean pitch over the first `max(2, ⌊n/5⌋)` voiced
frames, over the middle third of the voiced frames, and over the last
`max(2, ⌊n/5⌋)` voiced frames, and
`arc_slope = (pitch_end - pitch_start) / pitch_start`. -/
theorem segment_summary_amended (windowPitches : List ℚ)
    (h : windowPitches.filter (fun p => 0 < p) ≠ []) :
    segmentPitchSummary windowPitches =
      some (amendedPitchStart (windowPitches.filter (fun p => 0 < p)),
        amendedPitchMiddle (windowPitches.filter (fun p => 0 < p)),
        amendedPitchEnd (windowPitches.filter (fun p => 0 < p)),
        (amendedPitchEnd (windowPitches.filter (fun p => 0 < p)) -
          amendedPitchStart (windowPitches.filter (fun p => 0 < p))) /
          amendedPitchStart (windowPitches.filter (fun p => 0 < p))) := by
  dsimp only [segmentPitchSummary, amendedPitchStart, amendedPitchMiddle,
    amendedPitchEnd]
  rw [if_neg (by simpa [List.isEmpty_iff] using h)]

/-- Witness for C10 amended at five concrete voiced frames. -/
theorem segment_summary_amended_witness :
    segmentPitchSummary [100, 200, 100, 200, 100] =
      some (amendedPitchStart (([100, 200, 100, 200, 100] : List ℚ).filter (fun p => 0 < p)),
        amendedPitchMiddle (([100, 200, 100, 200, 100] : List ℚ).filter (fun p => 0 < p)),
        amendedPitchEnd (([100, 200, 100, 200, 100] : List ℚ).filter (fun p => 0 < p)),
        (amendedPitchEnd (([100, 200, 100, 200, 100] : List ℚ).filter (fun p => 0 < p)) -
          amendedPitchStart (([100, 200, 100, 200, 100] : List ℚ).filter (fun p => 0 < p))) /
          amendedPitchStart (([100, 200, 100, 200, 100] : List ℚ).filter (fun p => 0 < p))) :=
  segment_summary_amended [100, 200, 100, 200, 100] (by with_unfolding_all decide)

/-! ## Problem detector (`ProsodyProblemDetector`)

`identify_problems` consumes a list of analysis dictionaries produced by
`analyze_complete_audio` (or hand-built ones: the function is dict-typed).
Optional dictionary keys become `Option` fields; note that the analyzer
never sets a segment-level `pitch_mean` nor a window-level `text_snippet`,
but `identify_problems` reads both with `.get`, so they are kept as
`Option` fields here. -/

/-- One window dictionary of a segment analysis. -/
structure WindowA where
  windowId : ℕ
  position : ℚ
  positionType : String
  pitchMean : ℚ
  energy : ℚ
  spectralCentroid : ℚ
  textSnippet : Option String
deriving DecidableEq

/-- One segment analysis dictionary. -/
structure SegmentA where
  segmentId : ℕ
  text : String
  windows : List WindowA
  isParagraphEnd : Bool
  isQuestion : Bool
  isExclamation : Bool
  sentenceType : String
  pitchStart : Option ℚ
  pitchMiddle : Option ℚ
  pitchEnd : Option ℚ
  arcSlope : Option ℚ
  pitchMean : Option ℚ
deriving DecidableEq

/-- One problem dictionary (`current_metric`/`expected_metric` collect the
per-type `current_pitch`/`current_slope`/`current_variation` fields and
their `expected_*` counterparts; `palabraClave` collects
`palabra_clave`/`palabra`). -/
structure Problem where
  segmentId : ℕ
  windowId : Option ℕ
  ptype : String
  severity : ℚ
  currentMetric : Option ℚ
  expectedMetric : Option ℚ
  palabraClave : Option String
deriving DecidableEq

/-- `palabras_especiales['enfasis_alto']`. -/
def enfasisAltoWords : List String :=
  ["diferente", "increíble", "importante", "fundamental", "crucial"]

/-- `palabras_especiales['micro_ascenso']`. -/
def microAscensoWords : List String :=
  ["jazmín", "sal marina", "marina", "olvidadas", "amanecer", "esperanza",
    "doraron"]

/-- `palabras_especiales['mantener_grave']`. -/
def mantenerGraveWords : List String :=
  ["oscuridad", "sombras", "silencio", "profundidad", "niebla"]

/-- `palabras_especiales['finales_definitivos']`. -/
def finalesDefinitivosWords : List String :=
  ["definitivo", "final", "siempre", "nunca", "eternidad", "silencio",
    "vigilia"]

/-- Problems 1 and 2 of `identify_problems` (the
`if is_paragraph_end and declarative ... elif is_question` block). -/
def problemsCadenceQuestion (i : ℕ) (seg : SegmentA) (lastWindow : WindowA) :
    List Problem :=
  if seg.isParagraphEnd && seg.sentenceType = "declarative" then
    match seg.pitchStart, seg.pitchEnd with
    | some ps, some pe =>
      let expectedDrop := ps * (1 + (-8 / 100 : ℚ))
      if expectedDrop < pe ∧ 0 < pe then
        [{ segmentId := i, windowId := some lastWindow.windowId,
           ptype := "missing_paragraph_cadence",
           severity := |pe - expectedDrop| / max expectedDrop 1,
           currentMetric := some pe, expectedMetric := some expectedDrop,
           palabraClave := none }]
      else []
    | _, _ => []
  else if seg.isQuestion then
    match seg.pitchMiddle, seg.pitchEnd with
    | some pm, some pe =>
      let expectedRise := pm * (1 + (15 / 100 : ℚ))
      if pe < expectedRise ∧ 0 < pe then
        [{ segmentId := i, windowId := some lastWindow.windowId,
           ptype := "missing_question_rise",
           severity := |expectedRise - pe| / max expectedRise 1,
           currentMetric := some pe, expectedMetric := some expectedRise,
           palabraClave := none }]
      else []
    | _, _ => []
  else []

/-- Problem 3 of `identify_problems`: missing micro-ascents on the
`micro_ascenso` keywords, scanning the windows' `text_snippet`. -/
def problemsMicroAscenso (i : ℕ) (seg : SegmentA) : List Problem :=
  let textoSegment := lowerText seg.text.toList
  (microAscensoWords.map fun palabra =>
    if containsSub palabra.toList textoSegment then
      seg.windows.filterMap fun window =>
        if containsSub palabra.toList
            (lowerText (window.textSnippet.getD "").toList) then
          let pitchActual := window.pitchMean
          let pitchEsperado := pitchActual * (1 + (3 / 100 : ℚ))
          if pitchActual < pitchEsperado * (95 / 100) then
            some { segmentId := i, windowId := some window.windowId,
                   ptype := "missing_micro_ascenso",
                   severity := (|pitchEsperado - pitchActual| / max pitchEsperado 1)
                   * (12 / 10),
                   currentMetric := some pitchActual,
                   expectedMetric := some pitchEsperado,
                   palabraClave := some palabra }
          else none
        else none
    else []).flatten

/-- Problem 4 of `identify_problems`: insufficient emphasis on the
`enfasis_alto` keywords, scanning the windows' `text_snippet`. -/
def problemsEnfasisAlto (i : ℕ) (seg : SegmentA) : List Problem :=
  let textoSegment := lowerText seg.text.toList
  (enfasisAltoWords.map fun palabra =>
    if containsSub palabra.toList textoSegment then
      seg.windows.filterMap fun window =>
        if containsSub palabra.toList
            (lowerText (window.textSnippet.getD "").toList) then
          let pitchActual := window.pitchMean
          let pitchEsperado := pitchActual * (1 + (8 / 100 : ℚ))
          if pitchActual < pitchEsperado * (9 / 10) then
            some { segmentId := i, windowId := some window.windowId,
                   ptype := "insufficient_emphasis",
                   severity := (|pitchEsperado - pitchActual| / max pitchEsperado 1)
                   * (15 / 10),
                   currentMetric := some pitchActual,
                   expectedMetric := some pitchEsperado,
                   palabraClave := some palabra }
          else none
        else none
    else []).flatten

/-- Problem 5 of `identify_problems`: definitive endings (keyword in text,
paragraph end) without the strong `-12%` descent. -/
def problemsFinalesDefinitivos (i : ℕ) (seg : SegmentA) : List Problem :=
  let textoSegment := lowerText seg.text.toList
  finalesDefinitivosWords.filterMap fun palabra =>
    if containsSub palabra.toList textoSegment && seg.isParagraphEnd then
      match seg.pitchStart, seg.pitchEnd with
      | some ps, some pe =>
        let expectedDrop := ps * (1 + (-12 / 100 : ℚ))
        if expectedDrop * (11 / 10) < pe then
          some { segmentId := i, windowId := none,
                 ptype := "missing_definitive_ending",
                 severity := (|pe - expectedDrop| / max expectedDrop 1) * (13 / 10),
                 currentMetric := some pe, expectedMetric := some expectedDrop,
                 palabraClave := some palabra }
        else none
      | _, _ => none
    else none

/-- Problem 6 of `identify_problems`: inverted prosodic arc
(`arc_slope > 0.1`). -/
def problemsArc (i : ℕ) (seg : SegmentA) : List Problem :=
  match seg.arcSlope with
  | some slope =>
    if (1 / 10 : ℚ) < slope then
      [{ segmentId := i, windowId := none, ptype := "inverted_prosodic_arc",
         severity := min |slope - (-5 / 100 : ℚ)| 1 * (8 / 10),
         currentMetric := some slope, expectedMetric := some (-5 / 100),
         palabraClave := none }]
    else []
  | none => []

/-- `ProsodyProblemDetector._verificar_enfasis_palabra`. -/
def verificarEnfasisPalabra (seg : SegmentA) (palabra categoria : String) :
    Option Problem :=
  match seg.pitchMean with
  | none => none
  | some pm =>
    if pm ≤ 0 then none
    else
      let expectedBoost : ℚ :=
        if categoria = "enfasis_alto" then 8 / 100
        else if categoria = "micro_ascenso" then 3 / 100
        else if categoria = "mantener_grave" then -(-2 / 100)
        else if categoria = "finales_definitivos" then -12 / 100
        else 0
      let pitchVariation := seg.pitchEnd.getD pm - seg.pitchStart.getD pm
      let expectedVariation := pm * expectedBoost
      if |expectedVariation * (5 / 10)| < |pitchVariation - expectedVariation| then
        some { segmentId := seg.segmentId, windowId := none,
               ptype := "missing_emphasis_" ++ categoria,
               severity := min (|pitchVariation - expectedVariation| /
               max |expectedVariation| 1) 1,
               currentMetric := some pitchVariation,
               expectedMetric := some expectedVariation,
               palabraClave := some palabra }
      else none

/-- The keyword-emphasis sweep of `identify_problems` over all categories
of `palabras_especiales`, in dict insertion order. -/
def problemsEmphasisSweep (seg : SegmentA) : List Problem :=
  let textLower := lowerText seg.text.toList
  ([("enfasis_alto", enfasisAltoWords), ("micro_ascenso", microAscensoWords),
    ("mantener_grave", mantenerGraveWords),
    ("finales_definitivos", finalesDefinitivosWords)].map fun cat =>
    cat.2.filterMap fun palabra =>
      if containsSub palabra.toList textLower then
        verificarEnfasisPalabra seg palabra cat.1
      else none).flatten

/-- `ProsodyProblemDetector._verificar_variacion_velocidad`
(disabled in the source: always `None`). -/
def verificarVariacionVelocidad (analysisMap : List SegmentA)
    (currentIndex : ℕ) : Option Problem :=
  none

/-- `ProsodyProblemDetector._es_final_definitivo`. -/
def esFinalDefinitivo (seg : SegmentA) : Bool :=
  let text := lowerText seg.text.toList
  if ["final", "siempre", "nunca", "definitivo", "eternidad",
      "para siempre"].any (fun palabra => containsSub palabra.toList text) then
    true
  else if seg.isParagraphEnd && endsWithChar text '.' then true
  else false

/-- `ProsodyProblemDetector._verificar_final_definitivo`. -/
def verificarFinalDefinitivo (seg : SegmentA) (segmentId : ℕ) :
    Option Problem :=
  match seg.pitchStart, seg.pitchEnd with
  | some ps, some pe =>
    let expectedDrop := ps * (1 + (-12 / 100 : ℚ))
    if expectedDrop < pe ∧ 0 < pe then
      some { segmentId := segmentId, windowId := none,
             ptype := "missing_definitive_ending",
             severity := min (|pe - expectedDrop| / max |expectedDrop| 1) 1,
             currentMetric := some pe, expectedMetric := some expectedDrop,
             palabraClave := none }
    else none
  | _, _ => none

/-- All problems contributed by one segment of the `identify_problems`
loop (the `continue` on segments without a `release` window yields `[]`). -/
def problemsForSegment (analysisMap : List SegmentA) (i : ℕ)
    (seg : SegmentA) : List Problem :=
  let endingWindows := seg.windows.filter fun w => w.positionType = "release"
  match endingWindows.getLast? with
  | none => []
  | some lastWindow =>
    problemsCadenceQuestion i seg lastWindow ++
    problemsMicroAscenso i seg ++
    problemsEnfasisAlto i seg ++
    problemsFinalesDefinitivos i seg ++
    problemsArc i seg ++
    problemsEmphasisSweep seg ++
    (if 0 < i then (verificarVariacionVelocidad analysisMap i).toList else []) ++
    (if esFinalDefinitivo seg then (verificarFinalDefinitivo seg i).toList
      else [])

/-- Stable insertion of a problem into a severity-descending list (the
element goes after all elements of severity `≥` its own). -/
def insertDesc (p : Problem) : List Problem → List Problem
  | [] => [p]
  | q :: qs => if q.severity < p.severity then p :: q :: qs
      else q :: insertDesc p qs

/-- `sorted(problems, key=lambda x: x['severity'], reverse=True)`:
a stable severity-descending sort (Python's sort is stable, so any stable
sort produces the identical list). -/
def sortBySeverityDesc (l : List Problem) : List Problem :=
  l.foldl (fun acc p => insertDesc p acc) []

/-- `ProsodyProblemDetector.identify_problems`. -/
def identifyProblems (analysisMap : List SegmentA) : List Problem :=
  sortBySeverityDesc
    ((analysisMap.enum.map fun iseg =>
      problemsForSegment analysisMap iseg.1 iseg.2).flatten)

/-! ## C2 — problem severities -/

theorem mem_insertDesc {q p : Problem} {l : List Problem} :
    q ∈ insertDesc p l ↔ q = p ∨ q ∈ l := by
  induction l with
  | nil => simp [insertDesc]
  | cons r rs ih =>
    simp only [insertDesc]
    split
    · simp
    · simp only [List.mem_cons, ih]
      tauto

theorem mem_sortBySeverityDesc {q : Problem} {l : List Problem} :
    q ∈ sortBySeverityDesc l ↔ q ∈ l := by
  have general : ∀ (l acc : List Problem),
      (q ∈ l.foldl (fun a p => insertDesc p a) acc ↔ q ∈ acc ∨ q ∈ l) := by
    intro l
    induction l with
    | nil => simp
    | cons r rs ih =>
      intro acc
      simp only [List.foldl_cons, ih, mem_insertDesc, List.mem_cons]
      tauto
  simpa [sortBySeverityDesc] using general l []

theorem sev_div_nonneg (x y : ℚ) : 0 ≤ |x| / max y 1 := by
  apply div_nonneg (abs_nonneg x)
  have := le_max_right y 1
  linarith

theorem problemsCadenceQuestion_sev_nonneg {i : ℕ} {seg : SegmentA}
    {lw : WindowA} {p : Problem} (hp : p ∈ problemsCadenceQuestion i seg lw) :
    0 ≤ p.severity := by
  unfold problemsCadenceQuestion at hp
  split at hp
  · split at hp
    · dsimp only at hp
      split at hp
      · simp only [List.mem_singleton] at hp
        subst hp
        exact sev_div_nonneg _ _
      · simp at hp
    all_goals simp_all
  · split at hp
    · split at hp
      · dsimp only at hp
        split at hp
        · simp only [List.mem_singleton] at hp
          subst hp
          exact sev_div_nonneg _ _
        · simp at hp
      all_goals simp_all
    · simp at hp

theorem problemsMicroAscenso_sev_nonneg {i : ℕ} {seg : SegmentA}
    {p : Problem} (hp : p ∈ problemsMicroAscenso i seg) : 0 ≤ p.severity := by
  unfold problemsMicroAscenso at hp
  simp only [List.mem_flatten, List.mem_map] at hp
  obtain ⟨l, ⟨w, hw, rfl⟩, hp⟩ := hp
  split at hp
  · rw [List.mem_filterMap] at hp
    obtain ⟨win, hwin, hf⟩ := hp
    split at hf
    · simp only [Option.ite_none_right_eq_some, Option.some.injEq] at hf
      obtain ⟨-, hf⟩ := hf
      subst hf
      exact mul_nonneg (sev_div_nonneg _ _) (by norm_num)
    · simp at hf
  · simp at hp

theorem problemsEnfasisAlto_sev_nonneg {i : ℕ} {seg : SegmentA}
    {p : Problem} (hp : p ∈ problemsEnfasisAlto i seg) : 0 ≤ p.severity := by
  unfold problemsEnfasisAlto at hp
  simp only [List.mem_flatten, List.mem_map] at hp
  obtain ⟨l, ⟨w, hw, rfl⟩, hp⟩ := hp
  split at hp
  · rw [List.mem_filterMap] at hp
    obtain ⟨win, hwin, hf⟩ := hp
    split at hf
    · simp only [Option.ite_none_right_eq_some, Option.some.injEq] at hf
      obtain ⟨-, hf⟩ := hf
      subst hf
      exact mul_nonneg (sev_div_nonneg _ _) (by norm_num)
    · simp at hf
  · simp at hp

theorem problemsFinalesDefinitivos_sev_nonneg {i : ℕ} {seg : SegmentA}
    {p : Problem} (hp : p ∈ problemsFinalesDefinitivos i seg) :
    0 ≤ p.severity := by
  unfold problemsFinalesDefinitivos at hp
  rw [List.mem_filterMap] at hp
  obtain ⟨palabra, hpal, hf⟩ := hp
  split at hf
  · split at hf
    · simp only [Option.ite_none_right_eq_some, Option.some.injEq] at hf
      obtain ⟨-, hf⟩ := hf
      subst hf
      exact mul_nonneg (sev_div_nonneg _ _) (by norm_num)
    all_goals simp_all
  · simp at hf

theorem problemsArc_sev_nonneg {i : ℕ} {seg : SegmentA} {p : Problem}
    (hp : p ∈ problemsArc i seg) : 0 ≤ p.severity := by
  unfold problemsArc at hp
  split at hp
  · split at hp
    · simp only [List.mem_singleton] at hp
      subst hp
      exact mul_nonneg (le_min (abs_nonneg _) zero_le_one) (by norm_num)
    · simp at hp
  · simp at hp

theorem verificarEnfasisPalabra_sev_nonneg {seg : SegmentA}
    {palabra categoria : String} {p : Problem}
    (hp : verificarEnfasisPalabra seg palabra categoria = some p) :
    0 ≤ p.severity := by
  unfold verificarEnfasisPalabra at hp
  split at hp
  · simp at hp
  · split at hp
    · simp at hp
    · simp only [Option.ite_none_right_eq_some, Option.some.injEq] at hp
      obtain ⟨-, hp⟩ := hp
      subst hp
      exact le_min (div_nonneg (abs_nonneg _)
        (le_trans zero_le_one (le_max_right _ _))) zero_le_one

theorem problemsEmphasisSweep_sev_nonneg {seg : SegmentA} {p : Problem}
    (hp : p ∈ problemsEmphasisSweep seg) : 0 ≤ p.severity := by
  unfold problemsEmphasisSweep at hp
  simp only [List.mem_flatten, List.mem_map] at hp
  obtain ⟨l, ⟨cat, hcat, rfl⟩, hp⟩ := hp
  rw [List.mem_filterMap] at hp
  obtain ⟨palabra, hpal, hf⟩ := hp
  split at hf
  · exact verificarEnfasisPalabra_sev_nonneg hf
  · simp at hf

theorem verificarFinalDefinitivo_sev_nonneg {seg : SegmentA} {i : ℕ}
    {p : Problem} (hp : verificarFinalDefinitivo seg i = some p) :
    0 ≤ p.severity := by
  unfold verificarFinalDefinitivo at hp
  split at hp
  · simp only [Option.ite_none_right_eq_some, Option.some.injEq] at hp
    obtain ⟨-, hp⟩ := hp
    subst hp
    exact le_min (div_nonneg (abs_nonneg _)
      (le_trans zero_le_one (le_max_right _ _))) zero_le_one
  · simp at hp

theorem problemsForSegment_sev_nonneg {analysisMap : List SegmentA} {i : ℕ}
    {seg : SegmentA} {p : Problem}
    (hp : p ∈ problemsForSegment analysisMap i seg) : 0 ≤ p.severity := by
  unfold problemsForSegment at hp
  rcases hlw : (seg.windows.filter fun w =>
      w.positionType = "release").getLast? with - | lw
  all_goals simp only [hlw] at hp
  · simp at hp
  · simp only [verificarVariacionVelocidad, ite_self, Option.toList_none,
      List.append_nil, List.mem_append] at hp
    rcases hp with (((((hp | hp) | hp) | hp) | hp) | hp) | hp
    · exact problemsCadenceQuestion_sev_nonneg hp
    · exact problemsMicroAscenso_sev_nonneg hp
    · exact problemsEnfasisAlto_sev_nonneg hp
    · exact problemsFinalesDefinitivos_sev_nonneg hp
    · exact problemsArc_sev_nonneg hp
    · exact problemsEmphasisSweep_sev_nonneg hp
    · split at hp
      · rw [Option.mem_toList, Option.mem_def] at hp
        exact verificarFinalDefinitivo_sev_nonneg hp
      · simp at hp

/-- The concrete analysis input of the C2 counterexample: one declarative
paragraph-final segment whose end pitch (300) far exceeds the expected 8%
drop from the start pitch (100). -/
def cexSegment : SegmentA :=
  { segmentId := 0, text := "x",
    windows := [{ windowId := 0, position := 1, positionType := "release",
                  pitchMean := 0, energy := 0, spectralCentroid := 0,
                  textSnippet := none }],
    isParagraphEnd := true, isQuestion := false, isExclamation := false,
    sentenceType := "declarative",
    pitchStart := some 100, pitchMiddle := none, pitchEnd := some 300,
    arcSlope := none, pitchMean := none }

/-- C2 counterexample: on `cexSegment`, `identify_problems` produces a
single `missing_paragraph_cadence` problem of severity `52/23 ≈ 2.26`,
which lies outside `[0, 1]`: the severity `abs(actual - expected) /
max(expected, 1)` is not clamped to 1. -/
theorem severity_counterexample :
    (identifyProblems [cexSegment]).map Problem.severity = [52 / 23] ∧
    ¬ (52 / 23 : ℚ) ≤ 1 := by
  with_unfolding_all decide

/-- C2 amended: every problem produced by `identify_problems` has a
non-negative severity (but severities are not bounded by 1: the
cadence/question/micro-ascent/emphasis/definitive-ending severities are
unclamped ratios, optionally weighted by 1.2–1.5). -/
theorem severity_nonneg (analysisMap : List SegmentA) (p : Problem)
    (hp : p ∈ identifyProblems analysisMap) : 0 ≤ p.severity := by
  unfold identifyProblems at hp
  rw [mem_sortBySeverityDesc] at hp
  simp only [List.mem_flatten, List.mem_map] at hp
  obtain ⟨l, ⟨iseg, hiseg, rfl⟩, hp⟩ := hp
  exact problemsForSegment_sev_nonneg hp

/-- Witness for C2 amended at the concrete counterexample input. -/
theorem severity_nonneg_witness :
    0 ≤ ((identifyProblems [cexSegment]).getD 0
      { segmentId := 0, windowId := none, ptype := "", severity := 0,
        currentMetric := none, expectedMetric := none,
        palabraClave := none }).severity :=
  severity_nonneg [cexSegment] _ (by with_unfolding_all decide)

/-! ## Sentence segmentation (`ArquitecturaVocalMaestra._segmentar_frases`)

Recursive re-splitting of fragments and Spanish opening-mark handling.
Scanning functions that consume a variable number of characters per step
are written with an explicit fuel argument (one unit per consumed input
character, so `input.length` fuel always suffices); this keeps them
kernel-computable. -/

/-- `[.!?]` terminal punctuation class. -/
def isTermPunct (c : Char) : Bool := c = '.' || c = '!' || c = '?'

/-- `[!?]` class. -/
def isExclQ (c : Char) : Bool := c = '!' || c = '?'

/-- `[¡¿]` Spanish opening-mark class. -/
def isOpenSign (c : Char) : Bool := c = '¡' || c = '¿'

/-- `[A-ZÁÉÍÓÚÑ]` class of patterns 3 and 4 of `_dividir_frase_simple`. -/
def isUpperSpanish (c : Char) : Bool :=
  ('A' ≤ c && c ≤ 'Z') || c = 'Á' || c = 'É' || c = 'Í' || c = 'Ó' ||
  c = 'Ú' || c = 'Ñ'

/-- Leftmost match of `punct`, then a whitespace run of length `≥ minWs`,
then a `target` character: returns `(match start, target position)`,
the split positions used by `_dividir_frase_simple`. -/
def findPWT (punct target : Char → Bool) (minWs : ℕ) :
    List Char → ℕ → Option (ℕ × ℕ)
  | [], _ => none
  | c :: cs, idx =>
    if punct c then
      let k := (cs.takeWhile isWs).length
      if minWs ≤ k then
        match cs.drop k with
        | d :: _ =>
          if target d then some (idx, idx + 1 + k)
          else findPWT punct target minWs cs (idx + 1)
        | [] => findPWT punct target minWs cs (idx + 1)
      else findPWT punct target minWs cs (idx + 1)
    else findPWT punct target minWs cs (idx + 1)

/-- `ArquitecturaVocalMaestra._dividir_frase_simple`: split a sentence at
the first of four separation patterns (in priority order), stripping both
parts; unchanged when no pattern applies. -/
def dividirFraseSimple (texto : List Char) : List (List Char) :=
  let intento1 :=
    match findPWT isExclQ isOpenSign 0 texto 0 with
    | some (_, pos) =>
      let parte1 := pstrip (texto.take pos)
      let parte2 := pstrip (texto.drop pos)
      if !parte1.isEmpty && !parte2.isEmpty then some [parte1, parte2]
      else none
    | none => none
  match intento1 with
  | some r => r
  | none =>
  let intento2 :=
    match findPWT isTermPunct isOpenSign 0 texto 0 with
    | some (mstart, pos) =>
      if 0 < mstart then
        let parte1 := pstrip (texto.take pos)
        let parte2 := pstrip (texto.drop pos)
        if !parte1.isEmpty && !parte2.isEmpty then some [parte1, parte2]
        else none
      else none
    | none => none
  match intento2 with
  | some r => r
  | none =>
  let intento3 :=
    match findPWT isExclQ isUpperSpanish 1 texto 0 with
    | some (_, pos) =>
      let parte1 := pstrip (texto.take pos)
      let parte2 := pstrip (texto.drop pos)
      if !parte1.isEmpty && !parte2.isEmpty then some [parte1, parte2]
      else none
    | none => none
  match intento3 with
  | some r => r
  | none =>
  let intento4 :=
    match findPWT (fun c => c = '.') isUpperSpanish 1 texto 0 with
    | some (_, pos) =>
      let parte1 := pstrip (texto.take pos)
      let parte2 := pstrip (texto.drop pos)
      if !parte1.isEmpty && !parte2.isEmpty && 3 < parte1.length then
        some [parte1, parte2]
      else none
    | none => none
  match intento4 with
  | some r => r
  | none => [texto]

/-- The `while cambios` fixpoint loop of
`_separar_exclamaciones_interrogaciones`.  Every changing pass increases
the number of pieces, each piece being non-empty, so `length + 1` fuel
reaches the fixpoint. -/
def sepLoopAux : ℕ → List (List Char) → List (List Char)
  | 0, frases => frases
  | fuel + 1, frases =>
    let nuevas := (frases.map dividirFraseSimple).flatten
    if frases.any (fun f => 1 < (dividirFraseSimple f).length) then
      sepLoopAux fuel nuevas
    else nuevas

/-- The final-punctuation cleanup of
`_separar_exclamaciones_interrogaciones` for one stripped, non-empty
fragment: keep a `[.!?]` ending, else append `!`/`?`/`.` according to the
opening marks present. -/
def asegurarPuntuacion (fraseLimpia : List Char) : List Char :=
  match fraseLimpia.getLast? with
  | some c =>
    if c = '.' || c = '!' || c = '?' then fraseLimpia
    else if fraseLimpia.head? = some '¡' || containsSub ['¡'] fraseLimpia then
      fraseLimpia ++ ['!']
    else if fraseLimpia.head? = some '¿' || containsSub ['¿'] fraseLimpia then
      fraseLimpia ++ ['?']
    else fraseLimpia ++ ['.']
  | none => fraseLimpia

/-- `ArquitecturaVocalMaestra._separar_exclamaciones_interrogaciones`. -/
def separarExclamacionesInterrogaciones (texto : List Char) :
    List (List Char) :=
  let frasesActuales := sepLoopAux (texto.length + 1) [texto]
  frasesActuales.foldr (fun frase acc =>
    let fraseLimpia := pstrip frase
    if fraseLimpia.isEmpty then acc
    else asegurarPuntuacion fraseLimpia :: acc) []

/-- The abbreviations protected by `_segmentar_frases`
(`\b(Sr|Sra|Dr|Dra|St|Sto|Sta)\.`), in alternation order. -/
def abrevList : List String := ["Sr", "Sra", "Dr", "Dra", "St", "Sto", "Sta"]

/-- `<DOT>` as characters. -/
def dotMarker : List Char := "<DOT>".toList

/-- `<FRASE_BREAK>` as characters. -/
def fraseBreakMarker : List Char := "<FRASE_BREAK>".toList

/-- Try the abbreviation alternatives in regex alternation order: on
success returns the abbreviation and the rest of the input after the `.`
and the `\s*` run. -/
def tryAbbrev : List String → List Char → Option (List Char × List Char)
  | [], _ => none
  | a :: as, l =>
    if isPrefixL (a.toList ++ ['.']) l then
      some (a.toList, (l.drop (a.toList.length + 1)).dropWhile isWs)
    else tryAbbrev as l

/-- `re.sub(r'\b(Sr|Sra|Dr|Dra|St|Sto|Sta)\.\s*', r'\1<DOT> ', parrafo)`:
`prevWord` tracks whether the previous character was a word character
(for the `\b` boundary). -/
def protegerAbreviaturas : ℕ → Bool → List Char → List Char
  | 0, _, l => l
  | _ + 1, _, [] => []
  | fuel + 1, prevWord, c :: cs =>
    if !prevWord then
      match tryAbbrev abrevList (c :: cs) with
      | some (ab, rest) =>
        ab ++ dotMarker ++ [' '] ++ protegerAbreviaturas fuel false rest
      | none => c :: protegerAbreviaturas fuel (isWordChar c) cs
    else c :: protegerAbreviaturas fuel (isWordChar c) cs

/-- `re.sub(r'([.!?])\s*([¡¿])', r'\1<FRASE_BREAK>\2', texto)`:
insert a sentence-break marker (consuming the whitespace) wherever
terminal punctuation is followed by an opening mark. -/
def insertarMarcadores : ℕ → List Char → List Char
  | 0, l => l
  | _ + 1, [] => []
  | fuel + 1, c :: cs =>
    if isTermPunct c then
      let k := (cs.takeWhile isWs).length
      match cs.drop k with
      | d :: rest =>
        if isOpenSign d then c :: fraseBreakMarker ++ d :: insertarMarcadores fuel rest
        else c :: insertarMarcadores fuel cs
      | [] => c :: insertarMarcadores fuel cs
    else c :: insertarMarcadores fuel cs

/-- `re.sub(r'([.!?])\s{2,}([¡¿])', r'\1<FRASE_BREAK>\2', texto)`:
the second marker pass, requiring at least two whitespace characters
(a no-op after the first pass removed every `\s*` run before `[¡¿]`). -/
def insertarMarcadores2 : ℕ → List Char → List Char
  | 0, l => l
  | _ + 1, [] => []
  | fuel + 1, c :: cs =>
    if isTermPunct c then
      let k := (cs.takeWhile isWs).length
      if 2 ≤ k then
        match cs.drop k with
        | d :: rest =>
          if isOpenSign d then
            c :: fraseBreakMarker ++ d :: insertarMarcadores2 fuel rest
          else c :: insertarMarcadores2 fuel cs
        | [] => c :: insertarMarcadores2 fuel cs
      else c :: insertarMarcadores2 fuel cs
    else c :: insertarMarcadores2 fuel cs

/-- Python `texto.split('<FRASE_BREAK>')`. -/
def splitOnMarker : ℕ → List Char → List Char → List (List Char)
  | 0, l, acc => [acc.reverse ++ l]
  | fuel + 1, l, acc =>
    match l with
    | [] => [acc.reverse]
    | c :: cs =>
      if isPrefixL fraseBreakMarker (c :: cs) then
        acc.reverse :: splitOnMarker fuel ((c :: cs).drop fraseBreakMarker.length) []
      else splitOnMarker fuel cs (c :: acc)

/-- `re.split(r'[.!?]+\s+', texto_protegido)`: split on (and consume)
each maximal terminal-punctuation run followed by whitespace. -/
def splitTermRuns : ℕ → List Char → List Char → List (List Char)
  | 0, l, acc => [acc.reverse ++ l]
  | fuel + 1, l, acc =>
    match l with
    | [] => [acc.reverse]
    | c :: cs =>
      if isTermPunct c then
        let punctTail := (cs.takeWhile isTermPunct).length
        let afterPunct := cs.drop punctTail
        let wsRun := (afterPunct.takeWhile isWs).length
        if 0 < wsRun then
          acc.reverse :: splitTermRuns fuel (afterPunct.drop wsRun) []
        else splitTermRuns fuel cs (c :: acc)
      else splitTermRuns fuel cs (c :: acc)

/-- Python `f.replace('<DOT>', '.')`. -/
def reemplazarDot : ℕ → List Char → List Char
  | 0, l => l
  | _ + 1, [] => []
  | fuel + 1, c :: cs =>
    if isPrefixL dotMarker (c :: cs) then
      '.' :: reemplazarDot fuel ((c :: cs).drop dotMarker.length)
    else c :: reemplazarDot fuel cs

/-- `ArquitecturaVocalMaestra._segmentar_frases(parrafo)`. -/
def segmentarFrases (parrafo : List Char) : List (List Char) :=
  let textoProtegido := protegerAbreviaturas parrafo.length false parrafo
  let textoProtegido := insertarMarcadores textoProtegido.length textoProtegido
  let textoProtegido := insertarMarcadores2 textoProtegido.length textoProtegido
  let frasesRaw :=
    if containsSub fraseBreakMarker textoProtegido then
      splitOnMarker textoProtegido.length textoProtegido []
    else
      splitTermRuns textoProtegido.length textoProtegido []
  let frases := (frasesRaw.map fun f =>
    let fClean := pstrip (reemplazarDot f.length f)
    if fClean.isEmpty then []
    else separarExclamacionesInterrogaciones fClean).flatten
  frases.filter (fun f => !(pstrip f).isEmpty)

/-! ## C3 — segmentation output invariant -/

theorem asegurarPuntuacion_spec (l : List Char) (hl : l ≠ []) :
    asegurarPuntuacion l ≠ [] ∧
    ∃ c, (asegurarPuntuacion l).getLast? = some c ∧
      (c = '.' ∨ c = '!' ∨ c = '?') := by
  unfold asegurarPuntuacion
  rcases hgl : l.getLast? with - | c
  · rw [List.getLast?_eq_none_iff] at hgl
    exact absurd hgl hl
  · simp only [hgl]
    split
    · rename_i hc
      refine ⟨hl, c, hgl, ?_⟩
      rcases Bool.or_eq_true_iff.mp hc with h | h
      · rcases Bool.or_eq_true_iff.mp h with h' | h'
        · exact Or.inl (by simpa using h')
        · exact Or.inr (Or.inl (by simpa using h'))
      · exact Or.inr (Or.inr (by simpa using h))
    · split
      · exact ⟨by simp, '!', by simp [List.getLast?_concat], by simp⟩
      · split
        · exact ⟨by simp, '?', by simp [List.getLast?_concat], by simp⟩
        · exact ⟨by simp, '.', by simp [List.getLast?_concat], by simp⟩

theorem mem_separar_shape {t f : List Char}
    (hf : f ∈ separarExclamacionesInterrogaciones t) :
    ∃ l, l ≠ [] ∧ f = asegurarPuntuacion l := by
  unfold separarExclamacionesInterrogaciones at hf
  generalize sepLoopAux (t.length + 1) [t] = fs at hf
  induction fs with
  | nil => simp at hf
  | cons frase rest ih =>
    simp only [List.foldr_cons] at hf
    by_cases hemp : (pstrip frase).isEmpty
    · rw [if_pos hemp] at hf
      exact ih hf
    · rw [if_neg hemp] at hf
      rcases List.mem_cons.mp hf with rfl | hf'
      · exact ⟨pstrip frase, by simpa using hemp, rfl⟩
      · exact ih hf'

/-- C3: for every input paragraph, every sentence returned by
`_segmentar_frases` is non-empty and ends in one of the terminal
punctuation marks `.`, `!`, `?`. -/
theorem segmentation_terminal (parrafo f : List Char)
    (hf : f ∈ segmentarFrases parrafo) :
    f ≠ [] ∧ ∃ c, f.getLast? = some c ∧ (c = '.' ∨ c = '!' ∨ c = '?') := by
  unfold segmentarFrases at hf
  rw [List.mem_filter] at hf
  obtain ⟨hf, -⟩ := hf
  simp only [List.mem_flatten, List.mem_map] at hf
  obtain ⟨l, ⟨raw, hraw, rfl⟩, hfl⟩ := hf
  split at hfl
  · simp at hfl
  · obtain ⟨base, hbase, rfl⟩ := mem_separar_shape hfl
    exact asegurarPuntuacion_spec base hbase

/-- Witness for C3 on the spec's own example: `"¿Vienes? Sí, claro."`
segments into `"¿Vienes?"` and `"Sí, claro."`; the first output sentence
is non-empty and ends in `?`. -/
theorem segmentation_terminal_witness :
    "¿Vienes?".toList ≠ ([] : List Char) ∧
    ∃ c, "¿Vienes?".toList.getLast? = some c ∧
      (c = '.' ∨ c = '!' ∨ c = '?') :=
  segmentation_terminal "¿Vienes? Sí, claro.".toList "¿Vienes?".toList
    (by decide)

/-! ## Validation & retry loop
(`EstructuraComplejaMejorada.generate_single_phrase_with_validation`)

The engine call `self.f5tts.infer(...)`, the validation
`validate_audio_anti_truncation` and the scoring `evaluate_audio_quality`
act on the synthesized waveform, so one generation attempt is abstracted
as an oracle value `EngineOutcome` indexed by the attempt number;
invalid candidates carry their quality score (lower is better).  The
engine-fatal branch ("t must be strictly increasing or decreasing")
carries the result of its two recovery strategies (extension re-synthesis
and comma-split re-synthesis), each an `Option` audio on validated
success. -/

/-- Outcome of one attempt of the `while True` loop. -/
inductive EngineOutcome where
  | emptyWav : EngineOutcome
  | wavOut (valid : Bool) (score : ℚ) : EngineOutcome
  | keyInterrupt : EngineOutcome
  | genError : EngineOutcome
  | fatalError (extRecovery splitRecovery : Option ℕ) : EngineOutcome
deriving DecidableEq

/-- How `generate_single_phrase_with_validation` exits its loop. -/
inductive LoopResult where
  | validAudio (attempt : ℕ) : LoopResult
  | fallbackBest (attempt : ℕ) (score : ℚ) : LoopResult
  | errorBest (attempt : ℕ) (score : ℚ) : LoopResult
  | recoveredExt (audio : ℕ) : LoopResult
  | recoveredSplit (audio : ℕ) : LoopResult
  | engineExit : LoopResult
  | interrupted : LoopResult
deriving DecidableEq

/-- `if best_candidate is None or quality_score < best_candidate[1]:
best_candidate = (wav.copy(), quality_score)`. -/
def bestUpdate (best : Option (ℕ × ℚ)) (attempt : ℕ) (q : ℚ) :
    Option (ℕ × ℚ) :=
  match best with
  | none => some (attempt, q)
  | some (i, bq) => if q < bq then some (attempt, q) else some (i, bq)

/-- The `while True` retry loop (lines 430–577), run with explicit fuel:
`none` means the loop has not exited within `fuel` iterations.
`fallbackAfter` is `self.fallback_after_attempts` (`0` encodes the falsy
`None`/`0`, default `50`); the guard is Python's
`if self.fallback_after_attempts and attempt >= self.fallback_after_attempts`.
An empty waveform increments the attempt and `continue`s, reaching
neither the scoring nor the fallback check; a generic engine error falls
back to the best candidate only from attempt 10 on and only when one was
scored. -/
def runValidationLoop (fallbackAfter : ℕ) (out : ℕ → EngineOutcome) :
    ℕ → ℕ → Option (ℕ × ℚ) → Option LoopResult
  | 0, _, _ => none
  | fuel + 1, attempt, best =>
    match out attempt with
    | .emptyWav => runValidationLoop fallbackAfter out fuel (attempt + 1) best
    | .wavOut true _ => some (.validAudio attempt)
    | .wavOut false q =>
      let best' := bestUpdate best attempt q
      if fallbackAfter ≠ 0 ∧ fallbackAfter ≤ attempt then
        match best' with
        | some (i, sc) => some (.fallbackBest i sc)
        | none => none
      else runValidationLoop fallbackAfter out fuel (attempt + 1) best'
    | .keyInterrupt => some .interrupted
    | .genError =>
      match best with
      | some (i, sc) =>
        if 10 ≤ attempt then some (.errorBest i sc)
        else runValidationLoop fallbackAfter out fuel (attempt + 1) best
      | none => runValidationLoop fallbackAfter out fuel (attempt + 1) best
    | .fatalError ext split =>
      match ext with
      | some a => some (.recoveredExt a)
      | none =>
        match split with
        | some a => some (.recoveredSplit a)
        | none => some .engineExit

/-- The shared mutable synthesis overrides on the generator instance. -/
structure GenState where
  nfeSteps : ℕ
  swayCoef : ℚ
  cfgStrength : ℚ
  speed : ℚ
deriving DecidableEq

/-- `len(re.findall(r'\b\w+\b', text))` (the `num_words` of the
short-phrase micro-adjustment). -/
def countWordsRe (text : List Char) : ℕ := (wordsOf text).length

/-- `generate_single_phrase_with_validation`: save the parameter
overrides, apply the short-phrase micro-adjustment, run the retry loop,
and restore `nfe_steps`, `sway_sampling_coef` and `speed` in the `finally`
block on every exit path (return, fallback, or raised exception).  When
the loop has not exited (`none`), control is still inside the `try` and
the overridden state is the live one. -/
def generateSinglePhraseWithValidation (fallbackAfter : ℕ)
    (out : ℕ → EngineOutcome) (fuel : ℕ) (text : List Char)
    (st : GenState) : Option LoopResult × GenState :=
  let numWords := countWordsRe text
  let shortPhrase := numWords < 7 || text.length < 35
  let originalNfe := st.nfeSteps
  let originalSway := st.swayCoef
  let originalSpeed := st.speed
  let st1 := if shortPhrase then
    { st with nfeSteps := 28, swayCoef := -3 / 10, speed := 95 / 100 }
  else st
  match runValidationLoop fallbackAfter out fuel 1 none with
  | some r =>
    (some r, { st1 with nfeSteps := originalNfe,
                        swayCoef := originalSway,
                        speed := originalSpeed })
  | none => (none, st1)

/-! ## C1 — retry ceiling and fallback -/

/-- C1 counterexample: when the engine returns empty audio on every
attempt, the loop performs 200 iterations (far past the default ceiling
of 50) without scoring a candidate or returning a fallback — the claim
that it "accepts the best candidate after the ceiling rather than
continuing indefinitely" fails, and the loop is truly unlimited. -/
theorem retry_ceiling_counterexample :
    runValidationLoop 50 (fun _ => .emptyWav) 200 1 none = none := by
  decide

theorem bestUpdate_min (s : ℕ → ℚ) (a : ℕ) (best : Option (ℕ × ℚ))
    (ha : 1 ≤ a)
    (hInv : (a = 1 ∧ best = none) ∨
      (∃ i, best = some (i, s i) ∧ 1 ≤ i ∧ i + 1 ≤ a ∧
        ∀ k, 1 ≤ k → k + 1 ≤ a → s i ≤ s k)) :
    ∃ i, bestUpdate best a (s a) = some (i, s i) ∧ 1 ≤ i ∧ i ≤ a ∧
      ∀ k, 1 ≤ k → k ≤ a → s i ≤ s k := by
  rcases hInv with ⟨rfl, rfl⟩ | ⟨i, rfl, hi1, hia, hmin⟩
  · exact ⟨1, rfl, le_refl 1, le_refl 1, fun k hk1 hk2 => by
      have : k = 1 := le_antisymm hk2 hk1
      subst this
      exact le_refl _⟩
  · simp only [bestUpdate]
    split
    · rename_i hlt
      refine ⟨a, rfl, ha, le_refl a, fun k hk1 hk2 => ?_⟩
      rcases lt_or_eq_of_le hk2 with hk | hk
      · exact le_of_lt (lt_of_lt_of_le hlt (hmin k hk1 hk))
      · subst hk
        exact le_refl _
    · rename_i hge
      refine ⟨i, rfl, hi1, le_trans (Nat.le_of_succ_le hia) (le_refl a), fun k hk1 hk2 => ?_⟩
      rcases lt_or_eq_of_le hk2 with hk | hk
      · exact hmin k hk1 hk
      · subst hk
        exact le_of_not_lt hge

theorem retry_fallback_aux (s : ℕ → ℚ) (F : ℕ) (hF : 0 < F) :
    ∀ d a fuel best, a + d = F → 1 ≤ a → d + 1 ≤ fuel →
    ((a = 1 ∧ best = none) ∨
      (∃ i, best = some (i, s i) ∧ 1 ≤ i ∧ i + 1 ≤ a ∧
        ∀ k, 1 ≤ k → k + 1 ≤ a → s i ≤ s k)) →
    ∃ i, runValidationLoop F (fun n => .wavOut false (s n)) fuel a best =
        some (.fallbackBest i (s i)) ∧ 1 ≤ i ∧ i ≤ F ∧
        ∀ k, 1 ≤ k → k ≤ F → s i ≤ s k := by
  intro d
  induction d with
  | zero =>
    intro a fuel best haF ha hfuel hInv
    obtain ⟨f, rfl⟩ : ∃ f, fuel = f + 1 :=
      ⟨fuel - 1, by omega⟩
    have haF' : a = F := by omega
    subst haF'
    obtain ⟨i, hbu, hi1, hia, hmin⟩ := bestUpdate_min s a best ha hInv
    refine ⟨i, ?_, hi1, hia, hmin⟩
    simp only [runValidationLoop]
    rw [if_pos ⟨by omega, le_refl a⟩, hbu]
  | succ d ih =>
    intro a fuel best haF ha hfuel hInv
    obtain ⟨f, rfl⟩ : ∃ f, fuel = f + 1 := ⟨fuel - 1, by omega⟩
    obtain ⟨i, hbu, hi1, hia, hmin⟩ := bestUpdate_min s a best ha hInv
    have hrec := ih (a + 1) f (bestUpdate best a (s a)) (by omega) (by omega)
      (by omega)
      (Or.inr ⟨i, hbu, hi1, by omega, fun k hk1 hk2 => hmin k hk1 (by omega)⟩)
    obtain ⟨j, hj, hj1, hjF, hjmin⟩ := hrec
    refine ⟨j, ?_, hj1, hjF, hjmin⟩
    simp only [runValidationLoop]
    rw [if_neg (by omega)]
    exact hj

/-- C1 amended: when every generation attempt yields a non-empty but
invalid candidate with quality score `s n`, the retry loop scores each
candidate, keeps the best-scoring (minimum-score) one seen so far, and at
the configurable attempt ceiling `F` (default 50) returns that best
candidate as Fallback: the returned attempt `i` lies in `1..F` and
minimizes the score over the first `F` attempts.  (When attempts yield
empty audio or repeated pre-scoring errors the loop does not reach this
fallback and is truly unlimited — see the counterexample.) -/
theorem retry_fallback_at_ceiling (s : ℕ → ℚ) (F fuel : ℕ) (hF : 0 < F)
    (hfuel : F ≤ fuel) :
    ∃ i, runValidationLoop F (fun n => .wavOut false (s n)) fuel 1 none =
        some (.fallbackBest i (s i)) ∧ 1 ≤ i ∧ i ≤ F ∧
        ∀ k, 1 ≤ k → k ≤ F → s i ≤ s k :=
  retry_fallback_aux s F hF (F - 1) 1 fuel none (by omega) (le_refl 1)
    (by omega) (Or.inl ⟨rfl, rfl⟩)

/-- Witness for C1 amended: the default ceiling 50, scores `s n = n`
(attempt 1 is the best candidate). -/
theorem retry_fallback_at_ceiling_witness :
    ∃ i, runValidationLoop 50 (fun n => .wavOut false (n : ℚ)) 50 1 none =
        some (.fallbackBest i ((i : ℕ) : ℚ)) ∧ 1 ≤ i ∧ i ≤ 50 ∧
        ∀ k : ℕ, 1 ≤ k → k ≤ 50 → ((i : ℕ) : ℚ) ≤ ((k : ℕ) : ℚ) :=
  retry_fallback_at_ceiling (fun n => (n : ℚ)) 50 50 (by decide) (by decide)

/-! ## C9 — parameter restore on every exit path -/

/-- C9: whenever `generate_single_phrase_with_validation` exits — normal
return, fallback return, or raised exception (`SystemExit`,
`KeyboardInterrupt`, recovered engine error) — the shared mutable
overrides `nfe_steps`, `sway_sampling_coef` and `speed` are restored to
their values at entry by the `finally` block. -/
theorem params_restored (fallbackAfter fuel : ℕ) (out : ℕ → EngineOutcome)
    (text : List Char) (st : GenState) (r : LoopResult)
    (h : (generateSinglePhraseWithValidation fallbackAfter out fuel text st).1
      = some r) :
    (generateSinglePhraseWithValidation fallbackAfter out fuel text st).2.nfeSteps
      = st.nfeSteps ∧
    (generateSinglePhraseWithValidation fallbackAfter out fuel text st).2.swayCoef
      = st.swayCoef ∧
    (generateSinglePhraseWithValidation fallbackAfter out fuel text st).2.speed
      = st.speed := by
  dsimp only [generateSinglePhraseWithValidation] at h ⊢
  rcases hrun : runValidationLoop fallbackAfter out fuel 1 none with - | r'
  all_goals simp only [hrun] at h ⊢
  · simp at h
  · simp

/-- Witness for C9: a valid first attempt on a short phrase (the
micro-adjustment overrides are applied, then restored). -/
theorem params_restored_witness :
    (generateSinglePhraseWithValidation 50 (fun _ => .wavOut true 0) 5
      "hola.".toList ⟨64, -1, 2, 95 / 100⟩).2.nfeSteps = 64 ∧
    (generateSinglePhraseWithValidation 50 (fun _ => .wavOut true 0) 5
      "hola.".toList ⟨64, -1, 2, 95 / 100⟩).2.swayCoef = -1 ∧
    (generateSinglePhraseWithValidation 50 (fun _ => .wavOut true 0) 5
      "hola.".toList ⟨64, -1, 2, 95 / 100⟩).2.speed = 95 / 100 :=
  params_restored 50 5 (fun _ => .wavOut true 0) "hola.".toList
    ⟨64, -1, 2, 95 / 100⟩ (.validAudio 1) (by with_unfolding_all decide)

/-! ## Selective regenerator (`SelectiveRegenerator.fix_critical_problems`)

The engine call `_generate_with_params` and the scoring `_evaluate_fix`
act on synthesized waveforms, so one regeneration attempt is abstracted as
an oracle `gen k attempt` (problem position `k` in the processed list,
attempt number from 0); waveforms are abstract sample identifiers (`ℕ`). -/

/-- Outcome of one regeneration attempt. -/
inductive GenOutcome where
  | okAudio (audio : ℕ) (score : ℚ) : GenOutcome
  | emptyAudio : GenOutcome
  | genErr : GenOutcome
  | fatalErr : GenOutcome
deriving DecidableEq

/-- The per-problem attempt loop of `fix_critical_problems`
(`for attempt in range(max_safe_attempts)` with the
consecutive-failure abort, best-candidate tracking, the `score > 0.8`
early stop, and `sys.exit(1)` — `none` here — on the fatal engine
error). `remaining` counts the attempts left in the `range`. -/
def tryFixAttempts (gen : ℕ → GenOutcome) :
    ℕ → ℕ → Option ℕ → ℚ → ℕ → Option (Option ℕ × ℚ)
  | _, 0, best, bestScore, _ => some (best, bestScore)
  | attempt, remaining + 1, best, bestScore, cf =>
    match gen attempt with
    | .emptyAudio =>
      if 3 ≤ cf + 1 then some (best, bestScore)
      else tryFixAttempts gen (attempt + 1) remaining best bestScore (cf + 1)
    | .okAudio a sc =>
      let best' := if bestScore < sc then some a else best
      let bestScore' := if bestScore < sc then sc else bestScore
      if (8 : ℚ) / 10 < sc then some (best', bestScore')
      else tryFixAttempts gen (attempt + 1) remaining best' bestScore' 0
    | .genErr =>
      if 3 ≤ cf + 1 then some (best, bestScore)
      else tryFixAttempts gen (attempt + 1) remaining best bestScore (cf + 1)
    | .fatalErr => none

/-- The `fix_report` counters of `fix_critical_problems`. -/
structure FixReport where
  attempted : ℕ
  successful : ℕ
  failed : ℕ
deriving DecidableEq

/-- The outer problem loop of `fix_critical_problems`: over the critical
problems (paired with their position for the oracle), replacing
`fixed_segments[seg_id]` only when the best candidate exists and its
score exceeds 0.5; `none` propagates the fatal `sys.exit(1)`. -/
def fixLoop (gen : ℕ → ℕ → GenOutcome) (maxAttempts : ℕ) :
    List (ℕ × Problem) → List ℕ → FixReport → Option (List ℕ × FixReport)
  | [], segs, report => some (segs, report)
  | (k, problem) :: rest, segs, report =>
    match tryFixAttempts (gen k) 0 (min maxAttempts 5) none 0 0 with
    | none => none
    | some (best, bestScore) =>
      match best with
      | some a =>
        if (1 : ℚ) / 2 < bestScore then
          fixLoop gen maxAttempts rest (segs.set problem.segmentId a)
            { attempted := report.attempted + 1,
              successful := report.successful + 1, failed := report.failed }
        else
          fixLoop gen maxAttempts rest segs
            { attempted := report.attempted + 1,
              successful := report.successful, failed := report.failed + 1 }
      | none =>
        fixLoop gen maxAttempts rest segs
          { attempted := report.attempted + 1,
            successful := report.successful, failed := report.failed + 1 }

/-- `critical_problems = [p for p in problems if p['severity'] >
severity_threshold][:self.max_fixes]`, paired with positions. -/
def criticalProblemsOf (problems : List Problem) (severityThreshold : ℚ)
    (maxFixes : ℕ) : List Problem :=
  (problems.filter fun p => severityThreshold < p.severity).take maxFixes

/-- `SelectiveRegenerator.fix_critical_problems` (defaults:
`max_attempts = 25`, `max_fixes = 8`, `severity_threshold = 0.3`).  The
`texts` argument feeds only `_prepare_correction_hints`, whose output
goes into the oracle-abstracted engine call. -/
def fixCriticalProblems (gen : ℕ → ℕ → GenOutcome)
    (maxAttempts maxFixes : ℕ) (problems : List Problem)
    (audioSegments : List ℕ) (texts : List String)
    (severityThreshold : ℚ) : Option (List ℕ × FixReport) :=
  fixLoop gen maxAttempts
    (criticalProblemsOf problems severityThreshold maxFixes).enum
    audioSegments ⟨0, 0, 0⟩

/-! ## C8 — frame property of the regenerator -/

theorem fixLoop_frame (gen : ℕ → ℕ → GenOutcome) (maxAttempts : ℕ) :
    ∀ (items : List (ℕ × Problem)) (segs : List ℕ) (report : FixReport)
      (segsOut : List ℕ) (reportOut : FixReport),
    fixLoop gen maxAttempts items segs report = some (segsOut, reportOut) →
    segsOut.length = segs.length ∧
    ∀ i, segsOut.getD i 0 = segs.getD i 0 ∨
      ∃ kp ∈ items, kp.2.segmentId = i ∧
        ∃ a sc, tryFixAttempts (gen kp.1) 0 (min maxAttempts 5) none 0 0 =
          some (some a, sc) ∧ (1 : ℚ) / 2 < sc ∧ segsOut.getD i 0 = a := by
  intro items
  induction items with
  | nil =>
    intro segs report segsOut reportOut h
    simp only [fixLoop, Option.some.injEq, Prod.mk.injEq] at h
    obtain ⟨rfl, -⟩ := h
    exact ⟨rfl, fun i => Or.inl rfl⟩
  | cons kp rest ih =>
    intro segs report segsOut reportOut h
    obtain ⟨k, problem⟩ := kp
    simp only [fixLoop] at h
    rcases htf : tryFixAttempts (gen k) 0 (min maxAttempts 5) none 0 0 with
      - | ⟨bestOpt, bestScore⟩
    · simp only [htf] at h
      exact absurd h (by simp)
    · rcases bestOpt with - | a
      · simp only [htf] at h
        obtain ⟨hlen, hframe⟩ := ih _ _ _ _ h
        refine ⟨hlen, fun i => ?_⟩
        rcases hframe i with hsame | ⟨kp', hkp', hrest⟩
        · exact Or.inl hsame
        · exact Or.inr ⟨kp', List.mem_cons_of_mem _ hkp', hrest⟩
      · simp only [htf] at h
        split at h
        · rename_i hsc
          obtain ⟨hlen, hframe⟩ := ih _ _ _ _ h
          rw [List.length_set] at hlen
          refine ⟨hlen, fun i => ?_⟩
          rcases hframe i with hsame | ⟨kp', hkp', hrest⟩
          · by_cases hi : i = problem.segmentId
            · subst hi
              by_cases hbound : problem.segmentId < segs.length
              · refine Or.inr ⟨(k, problem), List.mem_cons_self _ _, rfl,
                  a, bestScore, htf, hsc, ?_⟩
                rw [hsame, List.getD_eq_getElem?_getD,
                  List.getElem?_set_self hbound]
                rfl
              · rw [hsame, List.getD_eq_getElem?_getD,
                  List.getD_eq_getElem?_getD (l := segs),
                  List.getElem?_eq_none
                    (by rw [List.length_set]; omega),
                  List.getElem?_eq_none (by omega)]
                exact Or.inl rfl
            · rw [hsame, List.getD_eq_getElem?_getD,
                List.getD_eq_getElem?_getD (l := segs),
                List.getElem?_set_ne (fun hEq => hi hEq.symm)]
              exact Or.inl rfl
          · exact Or.inr ⟨kp', List.mem_cons_of_mem _ hkp', hrest⟩
        · obtain ⟨hlen, hframe⟩ := ih _ _ _ _ h
          refine ⟨hlen, fun i => ?_⟩
          rcases hframe i with hsame | ⟨kp', hkp', hrest⟩
          · exact Or.inl hsame
          · exact Or.inr ⟨kp', List.mem_cons_of_mem _ hkp', hrest⟩

/-- C8: whenever `fix_critical_problems` returns, the returned segment
list has the same length as the input list; a segment at index `i`
differs from the input only when some processed critical problem targets
`i` and its best regeneration candidate scored above 0.5, in which case
the segment is replaced wholesale by that candidate; every other segment
is the input segment unchanged. -/
theorem fix_critical_problems_frame (gen : ℕ → ℕ → GenOutcome)
    (maxAttempts maxFixes : ℕ) (problems : List Problem)
    (audioSegments : List ℕ) (texts : List String)
    (severityThreshold : ℚ) (segsOut : List ℕ) (reportOut : FixReport)
    (h : fixCriticalProblems gen maxAttempts maxFixes problems audioSegments
      texts severityThreshold = some (segsOut, reportOut)) :
    segsOut.length = audioSegments.length ∧
    ∀ i, segsOut.getD i 0 = audioSegments.getD i 0 ∨
      ∃ kp ∈ (criticalProblemsOf problems severityThreshold maxFixes).enum,
        kp.2.segmentId = i ∧
        ∃ a sc, tryFixAttempts (gen kp.1) 0 (min maxAttempts 5) none 0 0 =
          some (some a, sc) ∧ (1 : ℚ) / 2 < sc ∧ segsOut.getD i 0 = a :=
  fixLoop_frame gen maxAttempts _ _ _ _ _ h

/-- Witness for C8: one critical problem on segment 1, fixed by a
candidate scoring 0.9; segments `[10, 20, 30]` become `[10, 99, 30]`. -/
theorem fix_critical_problems_frame_witness :
    ([10, 99, 30] : List ℕ).length = ([10, 20, 30] : List ℕ).length ∧
    ∀ i, ([10, 99, 30] : List ℕ).getD i 0 = ([10, 20, 30] : List ℕ).getD i 0 ∨
      ∃ kp ∈ (criticalProblemsOf
          [{ segmentId := 1, windowId := none,
             ptype := "missing_paragraph_cadence", severity := 6 / 10,
             currentMetric := none, expectedMetric := none,
             palabraClave := none }] (3 / 10) 8).enum,
        kp.2.segmentId = i ∧
        ∃ a sc, tryFixAttempts ((fun _ _ => .okAudio 99 (9 / 10)) kp.1) 0
            (min 25 5) none 0 0 = some (some a, sc) ∧ (1 : ℚ) / 2 < sc ∧
          ([10, 99, 30] : List ℕ).getD i 0 = a :=
  fix_critical_problems_frame (fun _ _ => .okAudio 99 (9 / 10)) 25 8
    [{ segmentId := 1, windowId := none,
       ptype := "missing_paragraph_cadence", severity := 6 / 10,
       currentMetric := none, expectedMetric := none, palabraClave := none }]
    [10, 20, 30] [] (3 / 10) [10, 99, 30] ⟨1, 1, 0⟩
    (by with_unfolding_all decide)

end TTSPros
